import Mathlib

/-!
Shallow embedding of streamlink's polling scheduler
(src/streamlink/stream/segmented/polling.py) and of the Vimeo
token-refresh machinery (src/streamlink/plugins/vimeo.py),
with theorems checking the natural-language specification.

Timestamps are modelled as rationals (Python floats / datetimes).
External effects (clock reads, the interruptible wait, the abstract
reload action, HTTP fetches) are passed in as explicit inputs.
-/

namespace Polling

/-- Outcome of the abstract `reload()` action supplied by a collaborator:
it returns normally, raises a `StreamError` (recoverable transport/fetch
failure), or raises any other exception. -/
inductive ReloadOutcome where
  | ok
  | streamError (msg : String)
  | otherError
deriving DecidableEq, Repr

/-- Mutable state of `PollingSegmentedStreamWorker`: the reload interval
`_reload_time` and the anchor `_reload_last`. -/
structure Worker where
  reload_time : ℚ
  reload_last : ℚ
deriving DecidableEq, Repr

/-- Result of one `wait_and_reload()` cycle: the updated worker state,
whether `reload()` was invoked, and whether an exception propagated out
of `wait_and_reload`. -/
structure CycleResult where
  worker : Worker
  reloadInvoked : Bool
  raised : Bool
deriving DecidableEq, Repr

/-- `time_wait` as computed at the top of `wait_and_reload`:
`max(0, reload_time - max(0, time_completed - reload_last))`. -/
def timeWait (w : Worker) (time_completed : ℚ) : ℚ :=
  max 0 (w.reload_time - max 0 (time_completed - w.reload_last))

/-- One `wait_and_reload()` cycle. `time_completed` is the `now()` read at
the start of the cycle; `waitOk` is the return value of the interruptible
`self.wait(time_wait)` (`false` when a stop signal interrupted the sleep);
`now_after` is the `now()` read in the behind-schedule branch; `outcome`
is the behaviour of the abstract `reload()` action. -/
def wait_and_reload (w : Worker) (time_completed : ℚ) (waitOk : Bool)
    (now_after : ℚ) (outcome : ReloadOutcome) : CycleResult :=
  let time_wait := timeWait w time_completed
  if waitOk then
    let w1 : Worker :=
      if time_wait > 0 then
        { w with reload_last := time_completed + time_wait }
      else
        { w with reload_last := now_after }
    match outcome with
    | .ok => ⟨w1, true, false⟩
    | .streamError _ => ⟨w1, true, false⟩
    | .otherError => ⟨w1, true, true⟩
  else
    ⟨w, false, false⟩

/-- Input of one scheduled cycle: the clock reads, whether the sleep
completed, and what the reload action did. -/
structure CycleInput where
  time_completed : ℚ
  waitOk : Bool
  now_after : ℚ
  outcome : ReloadOutcome
deriving DecidableEq, Repr

/-- Run a sequence of `wait_and_reload` cycles, returning the final worker
state and whether any cycle invoked `reload()`. -/
def runCycles (w : Worker) : List CycleInput → Worker × Bool
  | [] => (w, false)
  | c :: cs =>
      let r := wait_and_reload w c.time_completed c.waitOk c.now_after c.outcome
      let rest := runCycles r.worker cs
      (rest.1, r.reloadInvoked || rest.2)

/-- A run of cycles in which every sleep completes and every cycle starts
at or after the current anchor but less than one interval after it (the
reload of the previous cycle finished in less than `reload_time`). -/
def WellTimed (w : Worker) : List CycleInput → Prop
  | [] => True
  | c :: cs =>
      c.waitOk = true ∧
      w.reload_last ≤ c.time_completed ∧
      c.time_completed - w.reload_last < w.reload_time ∧
      WellTimed (wait_and_reload w c.time_completed c.waitOk c.now_after c.outcome).worker cs

end Polling

namespace Vimeo

/-- Token, path and URL strings are modelled as character lists so that
every operation on them is structurally computable. -/
abbrev Str := List Char

/-- Whether the first list is a leading segment of the second
(`re.search` of a `^`-anchored pattern looks only at the start). -/
def startsWithL : Str → Str → Bool
  | [], _ => true
  | _ :: _, [] => false
  | a :: as, b :: bs => a == b && startsWithL as bs

/-- Value of a run of ASCII digits, as `int()` of the captured group. -/
def digitsVal (ds : Str) : ℕ :=
  ds.foldl (fun acc c => acc * 10 + (c.toNat - 48)) 0

/-- Match of `_expiry_re1 = ^exp=(\d+)~` against the start of a string:
returns the captured digits as a number when the string starts with
`exp=`, followed by one or more digits, followed by `~`. -/
def parseExpiry1 (s : Str) : Option ℕ :=
  if startsWithL "exp=".data s then
    let rest := s.drop 4
    let digits := rest.takeWhile Char.isDigit
    if digits.isEmpty then none
    else if startsWithL "~".data (rest.drop digits.length) then some (digitsVal digits)
    else none
  else none

/-- Match of `_expiry_re2 = ^(\d+)-` against the start of a string:
returns the leading digits as a number when the string starts with one or
more digits followed by `-`. -/
def parseExpiry2 (s : Str) : Option ℕ :=
  let digits := s.takeWhile Char.isDigit
  if digits.isEmpty then none
  else if startsWithL "-".data (s.drop digits.length) then some (digitsVal digits)
  else none

/-- Python `str.split("/")`. -/
def splitSlash : Str → List Str
  | [] => [[]]
  | c :: cs =>
      let r := splitSlash cs
      if c == '/' then [] :: r
      else
        match r with
        | [] => [[c]]
        | h :: t => (c :: h) :: t

/-- Python `"/".join(parts)`. -/
def joinSlash : List Str → Str
  | [] => []
  | [p] => p
  | p :: ps => p ++ '/' :: joinSlash ps

/-- Mutable state of `VimeoAPI` relevant to token refresh. `auth_data`
starts as `none` (Python `None`); `expiry_time` is modelled after the
stream constructor has run `set_expiry_time`, so it holds a number. -/
structure API where
  auth_data : Option Str
  expiry_time : ℚ
  last_updated : ℚ
  updating : Bool
deriving DecidableEq, Repr

/-- `VimeoAPI._expiry_time_limit`. -/
def expiryTimeLimit : ℚ := 60

/-- `VimeoAPI.set_expiry_time(path)`: try `_expiry_re1` then
`_expiry_re2`; on a match the new `expiry_time` is the captured epoch
minus `_expiry_time_limit`, otherwise a `StreamError` is raised. -/
def set_expiry_time (path : Str) : Except String ℚ :=
  match (parseExpiry1 path).orElse (fun _ => parseExpiry2 path) with
  | some n => .ok ((n : ℚ) - expiryTimeLimit)
  | none => .error "expiry value not found in URL"

/-- The token part of a candidate URL: `urlparse(url).path.split("/")[1]`,
applied to the final (post-redirect) path of the candidate. -/
def tokenOfPath (p : Str) : Str :=
  (splitSlash p).getD 1 []

/-- The loop body test of `reload_auth_data`: the candidate token and the
current token hint match under the same expiry pattern (`_expiry_re1`
for both, or `_expiry_re2` for both). -/
def familyMatch (cand hint : Str) : Bool :=
  ((parseExpiry1 cand).isSome && (parseExpiry1 hint).isSome)
    || ((parseExpiry2 cand).isSome && (parseExpiry2 hint).isSome)

/-- The cdn loop of `reload_auth_data`: walk the candidate final paths in
order and return the token of the first one whose token matches the
hint's expiry-pattern family. -/
def findNewAuth (hint : Str) : List Str → Option Str
  | [] => none
  | p :: rest =>
      let cand := tokenOfPath p
      if familyMatch cand hint then some cand else findNewAuth hint rest

/-- What the external collaborators give `reload_auth_data`:
`none` — `get_data()` returned nothing (`no video data found`);
`some none` — data without an `hls` key (`hls key not found`);
`some (some paths)` — the final (post-redirect) URL paths of the hls cdn
candidates, in iteration order. -/
structure FetchEnv where
  data : Option (Option (List Str))
deriving DecidableEq, Repr

/-- Result of `reload_auth_data`: the API state as left by the call and
the message of the `StreamError` it raised, if any. -/
structure ReloadResult where
  api : API
  error : Option String
deriving DecidableEq, Repr

/-- `VimeoAPI.reload_auth_data(auth_part)`: set `updating` and
`last_updated` first; fetch the data; on success install the first
family-matching candidate token and clear `updating`; every failure
raises with `updating` still set. -/
def reload_auth_data (api0 : API) (auth_part : Str) (time_now : ℚ)
    (env : FetchEnv) : ReloadResult :=
  let api := { api0 with updating := true, last_updated := time_now }
  match env.data with
  | none => ⟨api, some "no video data found"⟩
  | some none => ⟨api, some "hls key not found in video data"⟩
  | some (some paths) =>
      match findNewAuth auth_part paths with
      | some newAuth => ⟨{ api with auth_data := some newAuth, updating := false }, none⟩
      | none => ⟨api, some "failed to get new auth data from URL"⟩

/-- State of one `VimeoHLSStream` together with its `VimeoAPI`.
`urlPre`/`urlPost` are the constant parts of `_parsed_url` around the
path, so `geturl()` of the rebuilt URL is
`urlPre ++ "/".join(path_parts) ++ urlPost`. -/
structure Stream where
  api : API
  path_parts : List Str
  url : Str
  need_update : Bool
  urlPre : Str
  urlPost : Str
deriving DecidableEq, Repr

/-- `self._parsed_url._replace(path="/".join(self._path_parts)).geturl()`. -/
def rebuildUrl (s : Stream) (parts : List Str) : Str :=
  s.urlPre ++ joinSlash parts ++ s.urlPost

/-- How one access to the `url` property ends: a returned URL string, or
an exception propagating out. -/
inductive AccessOutcome where
  | returned (url : Str)
  | raised (msg : String)
deriving DecidableEq, Repr

/-- Result of one access to the `url` property: the stream state it
leaves behind, how it ended, and whether it invoked `reload_auth_data`. -/
structure AccessResult where
  stream : Stream
  outcome : AccessOutcome
  refreshInvoked : Bool
deriving DecidableEq, Repr

/-- The `VimeoHLSStream.url` property. `time_now` is the `time()` read;
`env` is what the collaborators would answer if `reload_auth_data` runs.
First block: if an update is pending and the api is not updating, parse
the new token's expiry, rewrite path part 1 and the URL, clear the flag.
Second block: past expiry either mark `need_update` (refresh in progress
or last refresh started less than the limit ago) or synchronously invoke
`reload_auth_data` and mark `need_update`. -/
def urlAccess (s : Stream) (time_now : ℚ) (env : FetchEnv) : AccessResult :=
  let step1 : Except String Stream :=
    if s.need_update && !s.api.updating then
      match s.api.auth_data with
      | none => .error "TypeError: expected string or bytes-like object"
      | some auth =>
          match set_expiry_time auth with
          | .error e => .error e
          | .ok exp =>
              let parts := s.path_parts.set 1 auth
              .ok { s with
                    api := { s.api with expiry_time := exp },
                    path_parts := parts,
                    url := rebuildUrl s parts,
                    need_update := false }
    else .ok s
  match step1 with
  | .error e => ⟨s, .raised e, false⟩
  | .ok s1 =>
      if time_now > s1.api.expiry_time then
        if s1.api.updating || decide (time_now - s1.api.last_updated < expiryTimeLimit) then
          let s2 := { s1 with need_update := true }
          ⟨s2, .returned s2.url, false⟩
        else
          let r := reload_auth_data s1.api (s1.path_parts.getD 1 []) time_now env
          match r.error with
          | some e => ⟨{ s1 with api := r.api }, .raised e, true⟩
          | none => ⟨{ s1 with api := r.api, need_update := true },
                     .returned s1.url, true⟩
      else ⟨s1, .returned s1.url, false⟩

/-- Run a sequence of `url` accesses, returning the final stream state
and whether any access invoked `reload_auth_data`. An access that raises
still leaves its state in place for the subsequent ones. -/
def runAccesses (s : Stream) : List (ℚ × FetchEnv) → Stream × Bool
  | [] => (s, false)
  | (t, env) :: rest =>
      let r := urlAccess s t env
      let rec2 := runAccesses r.stream rest
      (rec2.1, r.refreshInvoked || rec2.2)

end Vimeo

namespace Polling

lemma anchor_step (w : Worker) (time_completed : ℚ)
    (now_after : ℚ) (outcome : ReloadOutcome)
    (hmono : w.reload_last ≤ time_completed)
    (hfast : time_completed - w.reload_last < w.reload_time) :
    timeWait w time_completed > 0 ∧
    (wait_and_reload w time_completed true now_after outcome).worker
      = ⟨w.reload_time, time_completed + timeWait w time_completed⟩ ∧
    (wait_and_reload w time_completed true now_after outcome).worker
      = ⟨w.reload_time, w.reload_last + w.reload_time⟩ := by
  have helapsed : max 0 (time_completed - w.reload_last) = time_completed - w.reload_last := by
    have : (0:ℚ) ≤ time_completed - w.reload_last := by linarith
    exact max_eq_right this
  have hwait : timeWait w time_completed = w.reload_time - (time_completed - w.reload_last) := by
    unfold timeWait
    rw [helapsed]
    have : (0:ℚ) ≤ w.reload_time - (time_completed - w.reload_last) := by linarith
    exact max_eq_right this
  have hpos : timeWait w time_completed > 0 := by
    rw [hwait]; linarith
  refine ⟨hpos, ?_, ?_⟩ <;>
  · unfold wait_and_reload
    simp only [if_pos hpos]
    rw [hwait]
    cases outcome <;> simp <;> ring_nf

/-- C1: a completed sleep with positive wait anchors to the intended fire
time (`time_completed + time_wait`), which equals the previous anchor plus
exactly one interval when the cycle started less than one interval after
the previous anchor; consequently, over any well-timed run of N cycles
(each sleep completed, each cycle begun less than one interval after the
anchor), the anchor advances by exactly N times the interval. -/
theorem wait_and_reload_anchor_exact (w : Worker) (time_completed : ℚ)
    (now_after : ℚ) (outcome : ReloadOutcome)
    (hmono : w.reload_last ≤ time_completed)
    (hfast : time_completed - w.reload_last < w.reload_time) :
    (timeWait w time_completed > 0 ∧
     (wait_and_reload w time_completed true now_after outcome).worker.reload_last
       = time_completed + timeWait w time_completed ∧
     (wait_and_reload w time_completed true now_after outcome).worker.reload_last
       = w.reload_last + w.reload_time) ∧
    (∀ cs : List CycleInput, WellTimed w cs →
      (runCycles w cs).1.reload_last
        = w.reload_last + (cs.length : ℚ) * w.reload_time) := by
  have hstep := anchor_step w time_completed now_after outcome hmono hfast
  refine ⟨⟨hstep.1, by rw [hstep.2.1], by rw [hstep.2.2]⟩, ?_⟩
  clear hstep hmono hfast
  intro cs
  induction cs generalizing w with
  | nil =>
      intro _
      simp [runCycles]
  | cons c cs ih =>
      intro hwt
      obtain ⟨hok, hmono, hfast, hrest⟩ := hwt
      have hstep := anchor_step w c.time_completed c.now_after c.outcome hmono hfast
      rw [hok] at hrest
      rw [hstep.2.2] at hrest
      have hih := ih ⟨w.reload_time, w.reload_last + w.reload_time⟩ hrest
      simp only [runCycles, hok, hstep.2.2, hih, List.length_cons]
      push_cast
      ring

theorem wait_and_reload_anchor_exact_witness :
    (⟨6, 100⟩ : Worker).reload_last ≤ 102 ∧
    (102:ℚ) - (⟨6, 100⟩ : Worker).reload_last < (⟨6, 100⟩ : Worker).reload_time ∧
    WellTimed ⟨6, 100⟩ [⟨102, true, 103, .ok⟩] ∧
    ((timeWait ⟨6, 100⟩ 102 > 0 ∧
      (wait_and_reload ⟨6, 100⟩ 102 true 103 .ok).worker.reload_last
        = 102 + timeWait ⟨6, 100⟩ 102 ∧
      (wait_and_reload ⟨6, 100⟩ 102 true 103 .ok).worker.reload_last
        = (⟨6, 100⟩ : Worker).reload_last + (⟨6, 100⟩ : Worker).reload_time) ∧
     (∀ cs : List CycleInput, WellTimed ⟨6, 100⟩ cs →
       (runCycles ⟨6, 100⟩ cs).1.reload_last
         = (⟨6, 100⟩ : Worker).reload_last + (cs.length : ℚ) * (⟨6, 100⟩ : Worker).reload_time)) := by
  have hwt : WellTimed ⟨6, 100⟩ [⟨102, true, 103, .ok⟩] := by
    refine ⟨rfl, by norm_num, by norm_num, trivial⟩
  exact ⟨by norm_num, by norm_num, hwt,
    wait_and_reload_anchor_exact ⟨6, 100⟩ 102 103 .ok (by norm_num) (by norm_num)⟩

/-- C5: an interrupted sleep (stop signal, `wait` returns `false`) makes
`wait_and_reload` return immediately: no reload is invoked and the anchor
is untouched; and over any sequence of cycles all observed as stopped,
no reload is ever invoked and the state never changes. -/
theorem wait_and_reload_stop (w : Worker) (c : CycleInput)
    (cs : List CycleInput) (hstop : c.waitOk = false)
    (hstopped : ∀ d ∈ cs, d.waitOk = false) :
    wait_and_reload w c.time_completed c.waitOk c.now_after c.outcome
      = ⟨w, false, false⟩ ∧
    runCycles w (c :: cs) = (w, false) := by
  have hone : ∀ d : CycleInput, d.waitOk = false →
      wait_and_reload w d.time_completed d.waitOk d.now_after d.outcome
        = ⟨w, false, false⟩ := by
    intro d hd
    unfold wait_and_reload
    rw [hd]
    simp
  have hall : ∀ ds : List CycleInput, (∀ d ∈ ds, d.waitOk = false) →
      runCycles w ds = (w, false) := by
    intro ds
    induction ds with
    | nil => intro _; rfl
    | cons d ds ih =>
        intro hds
        have hd : d.waitOk = false := hds d (List.mem_cons_self d ds)
        have hrest : ∀ e ∈ ds, e.waitOk = false := by
          intro e he; exact hds e (List.mem_cons_of_mem d he)
        unfold runCycles
        rw [hone d hd]
        simp [ih hrest]
  refine ⟨hone c hstop, hall (c :: cs) ?_⟩
  intro d hd
  rcases List.mem_cons.mp hd with h | h
  · rw [h]; exact hstop
  · exact hstopped d h

theorem wait_and_reload_stop_witness :
    (⟨100, true, 101, .ok⟩ : CycleInput).waitOk = false ∨
    (wait_and_reload ⟨6, 50⟩ 100 false 101 .ok = ⟨⟨6, 50⟩, false, false⟩ ∧
     runCycles ⟨6, 50⟩ [⟨100, false, 101, .ok⟩, ⟨107, false, 108, .streamError "e"⟩]
       = (⟨6, 50⟩, false)) :=
  Or.inr
    (wait_and_reload_stop ⟨6, 50⟩ ⟨100, false, 101, .ok⟩
      [⟨107, false, 108, .streamError "e"⟩] rfl
      (by intro d hd; simp at hd; rw [hd]))

/-- C8: a cycle starting at least one interval after the anchor computes a
zero wait, fires the reload immediately (when not stopped), and
resynchronises the anchor to the current wall-clock time `now_after`
rather than to the previous anchor plus the interval. -/
theorem wait_and_reload_overrun (w : Worker) (time_completed : ℚ)
    (now_after : ℚ) (outcome : ReloadOutcome)
    (hnn : 0 ≤ w.reload_time)
    (hlate : time_completed - w.reload_last ≥ w.reload_time) :
    timeWait w time_completed = 0 ∧
    (wait_and_reload w time_completed true now_after outcome).worker.reload_last
      = now_after ∧
    (wait_and_reload w time_completed true now_after outcome).reloadInvoked
      = true := by
  have helapsed : max 0 (time_completed - w.reload_last) = time_completed - w.reload_last := by
    have : (0:ℚ) ≤ time_completed - w.reload_last := by linarith
    exact max_eq_right this
  have hwait : timeWait w time_completed = 0 := by
    unfold timeWait
    rw [helapsed]
    have : w.reload_time - (time_completed - w.reload_last) ≤ 0 := by linarith
    exact max_eq_left this
  have hnotpos : ¬ timeWait w time_completed > 0 := by rw [hwait]; norm_num
  refine ⟨hwait, ?_, ?_⟩ <;>
  · unfold wait_and_reload
    simp only [if_neg hnotpos]
    cases outcome <;> simp

theorem wait_and_reload_overrun_witness :
    (0:ℚ) ≤ (⟨6, 100⟩ : Worker).reload_time ∧
    (110:ℚ) - (⟨6, 100⟩ : Worker).reload_last ≥ (⟨6, 100⟩ : Worker).reload_time ∧
    (timeWait ⟨6, 100⟩ 110 = 0 ∧
     (wait_and_reload ⟨6, 100⟩ 110 true 110 .ok).worker.reload_last = 110 ∧
     (wait_and_reload ⟨6, 100⟩ 110 true 110 .ok).reloadInvoked = true) :=
  ⟨by norm_num, by norm_num,
   wait_and_reload_overrun ⟨6, 100⟩ 110 110 .ok (by norm_num) (by norm_num)⟩

/-- C9: after a completed sleep, a `StreamError` raised by `reload()` is
caught (nothing propagates) while any other exception propagates out of
`wait_and_reload`; in both cases the reload was invoked and the already
advanced anchor is identical to the one a successful reload leaves, so
scheduling is unaffected by the failure. -/
theorem wait_and_reload_reload_failure (w : Worker) (time_completed : ℚ)
    (now_after : ℚ) (msg : String) :
    (wait_and_reload w time_completed true now_after (.streamError msg)).raised
      = false ∧
    (wait_and_reload w time_completed true now_after (.streamError msg)).reloadInvoked
      = true ∧
    (wait_and_reload w time_completed true now_after (.streamError msg)).worker
      = (wait_and_reload w time_completed true now_after .ok).worker ∧
    (wait_and_reload w time_completed true now_after .otherError).raised
      = true ∧
    (wait_and_reload w time_completed true now_after .otherError).worker
      = (wait_and_reload w time_completed true now_after .ok).worker := by
  unfold wait_and_reload
  by_cases hpos : timeWait w time_completed > 0 <;>
    simp only [if_pos, if_neg, hpos, if_true, if_false] <;> simp

end Polling

namespace Vimeo

lemma set_expiry_time_of_parse1 {s : Str} {n : ℕ} (h : parseExpiry1 s = some n) :
    set_expiry_time s = .ok ((n : ℚ) - expiryTimeLimit) := by
  unfold set_expiry_time
  rw [h]
  rfl

lemma set_expiry_time_of_parse2 {s : Str} {n : ℕ} (h1 : parseExpiry1 s = none)
    (h2 : parseExpiry2 s = some n) :
    set_expiry_time s = .ok ((n : ℚ) - expiryTimeLimit) := by
  unfold set_expiry_time
  rw [h1]
  simp [Option.orElse, h2]

lemma set_expiry_time_of_no_parse {s : Str} (h1 : parseExpiry1 s = none)
    (h2 : parseExpiry2 s = none) :
    set_expiry_time s = .error "expiry value not found in URL" := by
  unfold set_expiry_time
  rw [h1]
  simp [Option.orElse, h2]

/-- C4: `set_expiry_time` tries `exp=<digits>~` first, then leading
`<digits>-`; a match yields the captured epoch minus the 60-second
margin, otherwise it fails with the malformed-token `StreamError`; in
particular `exp=1700000000~abc` and `1700000000-abc` both give
`1700000000 - 60` and `abc123` fails. -/
theorem set_expiry_time_spec :
    (∀ (s : Str) (n : ℕ), parseExpiry1 s = some n →
      set_expiry_time s = .ok ((n : ℚ) - 60)) ∧
    (∀ (s : Str) (n : ℕ), parseExpiry1 s = none → parseExpiry2 s = some n →
      set_expiry_time s = .ok ((n : ℚ) - 60)) ∧
    (∀ s : Str, parseExpiry1 s = none → parseExpiry2 s = none →
      set_expiry_time s = .error "expiry value not found in URL") ∧
    set_expiry_time "exp=1700000000~abc".data = .ok ((1700000000 : ℚ) - 60) ∧
    set_expiry_time "1700000000-abc".data = .ok ((1700000000 : ℚ) - 60) ∧
    set_expiry_time "abc123".data = .error "expiry value not found in URL" := by
  have hp1 : parseExpiry1 "exp=1700000000~abc".data = some 1700000000 := by decide
  have hp2a : parseExpiry1 "1700000000-abc".data = none := by decide
  have hp2b : parseExpiry2 "1700000000-abc".data = some 1700000000 := by decide
  have hp3a : parseExpiry1 "abc123".data = none := by decide
  have hp3b : parseExpiry2 "abc123".data = none := by decide
  refine ⟨?_, ?_, ?_, ?_, ?_, ?_⟩
  · intro s n h; exact set_expiry_time_of_parse1 h
  · intro s n h1 h2; exact set_expiry_time_of_parse2 h1 h2
  · intro s h1 h2; exact set_expiry_time_of_no_parse h1 h2
  · exact set_expiry_time_of_parse1 hp1
  · exact set_expiry_time_of_parse2 hp2a hp2b
  · exact set_expiry_time_of_no_parse hp3a hp3b

theorem set_expiry_time_spec_witness :
    parseExpiry1 "exp=42~x".data = some 42 ∧
    set_expiry_time "exp=42~x".data = .ok ((42 : ℚ) - 60) :=
  ⟨by decide, set_expiry_time_spec.1 "exp=42~x".data 42 (by decide)⟩

end Vimeo

namespace Vimeo

lemma urlAccess_skip_block1 (s : Stream) (time_now : ℚ) (env : FetchEnv)
    (h0 : s.need_update = false ∨ s.api.updating = true) :
    urlAccess s time_now env =
      (if time_now > s.api.expiry_time then
        if s.api.updating || decide (time_now - s.api.last_updated < expiryTimeLimit) then
          ⟨{ s with need_update := true }, .returned s.url, false⟩
        else
          let r := reload_auth_data s.api (s.path_parts.getD 1 []) time_now env
          match r.error with
          | some e => ⟨{ s with api := r.api }, .raised e, true⟩
          | none => ⟨{ s with api := r.api, need_update := true },
                     .returned s.url, true⟩
      else ⟨s, .returned s.url, false⟩) := by
  unfold urlAccess
  have hcond : (s.need_update && !s.api.updating) = false := by
    rcases h0 with h | h <;> simp [h]
  rw [hcond]
  simp

lemma urlAccess_throttled (s : Stream) (time_now : ℚ) (env : FetchEnv)
    (h0 : s.need_update = false ∨ s.api.updating = true)
    (hexp : time_now > s.api.expiry_time)
    (hth : s.api.updating = true ∨ time_now - s.api.last_updated < expiryTimeLimit) :
    urlAccess s time_now env =
      ⟨{ s with need_update := true }, .returned s.url, false⟩ := by
  rw [urlAccess_skip_block1 s time_now env h0]
  have hor : (s.api.updating || decide (time_now - s.api.last_updated < expiryTimeLimit)) = true := by
    rcases hth with h | h <;> simp [h]
  rw [if_pos hexp, if_pos hor]

lemma urlAccess_not_expired (s : Stream) (time_now : ℚ) (env : FetchEnv)
    (h0 : s.need_update = false ∨ s.api.updating = true)
    (hexp : ¬ time_now > s.api.expiry_time) :
    urlAccess s time_now env = ⟨s, .returned s.url, false⟩ := by
  rw [urlAccess_skip_block1 s time_now env h0, if_neg hexp]

lemma urlAccess_refresh (s : Stream) (time_now : ℚ) (env : FetchEnv)
    (h0 : s.need_update = false ∨ s.api.updating = true)
    (hexp : time_now > s.api.expiry_time)
    (hupd : s.api.updating = false)
    (hth : ¬ time_now - s.api.last_updated < expiryTimeLimit) :
    urlAccess s time_now env =
      (let r := reload_auth_data s.api (s.path_parts.getD 1 []) time_now env
       match r.error with
       | some e => ⟨{ s with api := r.api }, .raised e, true⟩
       | none => ⟨{ s with api := r.api, need_update := true },
                  .returned s.url, true⟩) := by
  rw [urlAccess_skip_block1 s time_now env h0]
  have hor : (s.api.updating || decide (time_now - s.api.last_updated < expiryTimeLimit)) = false := by
    simp [hupd, hth]
  rw [if_pos hexp, if_neg (by simp [hor])]

lemma urlAccess_install (s : Stream) (time_now : ℚ) (env : FetchEnv)
    (a : Str) (e : ℚ)
    (hnu : s.need_update = true)
    (hupd : s.api.updating = false)
    (hauth : s.api.auth_data = some a)
    (hset : set_expiry_time a = .ok e)
    (hfresh : ¬ time_now > e) :
    urlAccess s time_now env =
      ⟨{ s with
          api := { s.api with expiry_time := e },
          path_parts := s.path_parts.set 1 a,
          url := rebuildUrl s (s.path_parts.set 1 a),
          need_update := false },
        .returned (rebuildUrl s (s.path_parts.set 1 a)), false⟩ := by
  unfold urlAccess
  have hcond : (s.need_update && !s.api.updating) = true := by simp [hnu, hupd]
  rw [hcond]
  simp only [if_true]
  rw [hauth]
  simp only
  rw [hset]
  simp only [if_neg hfresh]

end Vimeo

namespace Vimeo

/-- C2: an access that synchronously triggers a refresh (past expiry, no
refresh in progress, throttle elapsed, and the refresh succeeds) invokes
`reload_auth_data`, sets `need_update`, and still returns the pre-refresh
URL; the next access, with the refresh completed and the new token not
yet expired, rewrites path part 1 with the new token, clears
`need_update`, and returns the new URL. -/
theorem url_refresh_visible_next_access (s : Stream) (t1 t2 : ℚ)
    (paths : List Str) (env2 : FetchEnv) (newAuth : Str) (e2 : ℚ)
    (h1 : s.need_update = false)
    (h2 : t1 > s.api.expiry_time)
    (h3 : s.api.updating = false)
    (h4 : ¬ t1 - s.api.last_updated < expiryTimeLimit)
    (h6 : findNewAuth (s.path_parts.getD 1 []) paths = some newAuth)
    (h7 : set_expiry_time newAuth = .ok e2)
    (h8 : ¬ t2 > e2) :
    (urlAccess s t1 ⟨some (some paths)⟩).refreshInvoked = true ∧
    (urlAccess s t1 ⟨some (some paths)⟩).outcome = .returned s.url ∧
    (urlAccess s t1 ⟨some (some paths)⟩).stream.url = s.url ∧
    (urlAccess s t1 ⟨some (some paths)⟩).stream.need_update = true ∧
    (urlAccess s t1 ⟨some (some paths)⟩).stream.api.auth_data = some newAuth ∧
    (urlAccess s t1 ⟨some (some paths)⟩).stream.api.updating = false ∧
    (urlAccess (urlAccess s t1 ⟨some (some paths)⟩).stream t2 env2).refreshInvoked
      = false ∧
    (urlAccess (urlAccess s t1 ⟨some (some paths)⟩).stream t2 env2).stream.need_update
      = false ∧
    (urlAccess (urlAccess s t1 ⟨some (some paths)⟩).stream t2 env2).outcome
      = .returned (rebuildUrl s (s.path_parts.set 1 newAuth)) ∧
    (urlAccess (urlAccess s t1 ⟨some (some paths)⟩).stream t2 env2).stream.url
      = rebuildUrl s (s.path_parts.set 1 newAuth) := by
  have hacc1 : urlAccess s t1 ⟨some (some paths)⟩ =
      ⟨{ s with
          api := { s.api with
                    auth_data := some newAuth,
                    last_updated := t1,
                    updating := false },
          need_update := true },
        .returned s.url, true⟩ := by
    rw [urlAccess_refresh s t1 ⟨some (some paths)⟩ (Or.inl h1) h2 h3 h4]
    unfold reload_auth_data
    simp only [h6]
  rw [hacc1]
  have hacc2 := urlAccess_install
    (⟨{ s.api with auth_data := some newAuth, last_updated := t1, updating := false },
      s.path_parts, s.url, true, s.urlPre, s.urlPost⟩ : Stream)
    t2 env2 newAuth e2 rfl rfl rfl h7 h8
  refine ⟨rfl, rfl, rfl, rfl, rfl, rfl, ?_, ?_, ?_, ?_⟩ <;>
  · cases s
    rw [hacc2]
    try rfl

theorem url_refresh_visible_next_access_witness :
    ((⟨⟨some "exp=100~s".data, 40, 0, false⟩,
       [[], "exp=100~s".data, "f.m3u8".data],
       "https://h/exp=100~s/f.m3u8".data, false,
       "https://h".data, []⟩ : Stream).need_update = false) ∧
    ((100:ℚ) > 40) ∧
    (¬ (100:ℚ) - 0 < expiryTimeLimit) ∧
    (findNewAuth ((([[], "exp=100~s".data, "f.m3u8".data] : List Str)).getD 1 [])
        ["/exp=200~n/f.m3u8".data] = some "exp=200~n".data) ∧
    (set_expiry_time "exp=200~n".data = .ok 140) ∧
    (¬ (110:ℚ) > 140) ∧
    ((urlAccess ⟨⟨some "exp=100~s".data, 40, 0, false⟩,
       [[], "exp=100~s".data, "f.m3u8".data],
       "https://h/exp=100~s/f.m3u8".data, false,
       "https://h".data, []⟩ 100 ⟨some (some ["/exp=200~n/f.m3u8".data])⟩).refreshInvoked
      = true) := by
  have hset : set_expiry_time "exp=200~n".data = .ok 140 := by
    have hp : parseExpiry1 "exp=200~n".data = some 200 := by decide
    rw [set_expiry_time_of_parse1 hp]
    norm_num [expiryTimeLimit]
  have hfind : findNewAuth ((([[], "exp=100~s".data, "f.m3u8".data] : List Str)).getD 1 [])
      ["/exp=200~n/f.m3u8".data] = some "exp=200~n".data := by decide
  refine ⟨rfl, by norm_num, by norm_num [expiryTimeLimit], hfind, hset, by norm_num, ?_⟩
  exact (url_refresh_visible_next_access
    ⟨⟨some "exp=100~s".data, 40, 0, false⟩,
      [[], "exp=100~s".data, "f.m3u8".data],
      "https://h/exp=100~s/f.m3u8".data, false,
      "https://h".data, []⟩ 100 110 ["/exp=200~n/f.m3u8".data] ⟨none⟩
      "exp=200~n".data 140 rfl (by norm_num) rfl
      (by norm_num [expiryTimeLimit]) hfind hset (by norm_num)).1

end Vimeo

namespace Vimeo

/-- C3 (counterexample): at `now = expiryTime` exactly, with a refresh in
progress, the access does not set `need_update` — the code guards the
expiry branch with a strict `time_now > expiry_time`, not `≥`. -/
theorem url_guarded_access_boundary_counterexample :
    ((⟨⟨some "exp=100~s".data, 100, 0, true⟩, [[], "exp=100~s".data],
       "u".data, false, "p".data, []⟩ : Stream).api.updating = true) ∧
    ((100:ℚ) ≥ (⟨⟨some "exp=100~s".data, 100, 0, true⟩, [[], "exp=100~s".data],
       "u".data, false, "p".data, []⟩ : Stream).api.expiry_time) ∧
    ((urlAccess ⟨⟨some "exp=100~s".data, 100, 0, true⟩, [[], "exp=100~s".data],
       "u".data, false, "p".data, []⟩ 100 ⟨none⟩).refreshInvoked = false) ∧
    ((urlAccess ⟨⟨some "exp=100~s".data, 100, 0, true⟩, [[], "exp=100~s".data],
       "u".data, false, "p".data, []⟩ 100 ⟨none⟩).stream.need_update = false) := by
  have hacc := urlAccess_not_expired
    (⟨⟨some "exp=100~s".data, 100, 0, true⟩, [[], "exp=100~s".data],
      "u".data, false, "p".data, []⟩ : Stream) 100 ⟨none⟩
    (Or.inr rfl) (by norm_num)
  exact ⟨rfl, by norm_num, by rw [hacc], by rw [hacc]⟩

/-- C3 (amended): an access made strictly after expiry
(`now > expiryTime`) while a refresh is in progress or the time since
`last_updated` is below the safety margin never invokes
`reload_auth_data`; it sets `need_update` and — provided no completed
refresh is pending installation — returns the current URL unchanged and
leaves the API state untouched. -/
theorem url_guarded_access (s : Stream) (t : ℚ) (env : FetchEnv)
    (hpend : ¬ (s.need_update = true ∧ s.api.updating = false))
    (hexp : t > s.api.expiry_time)
    (hcond : s.api.updating = true ∨ t - s.api.last_updated < expiryTimeLimit) :
    (urlAccess s t env).refreshInvoked = false ∧
    (urlAccess s t env).stream.need_update = true ∧
    (urlAccess s t env).outcome = .returned s.url ∧
    (urlAccess s t env).stream.api = s.api ∧
    (urlAccess s t env).stream.url = s.url := by
  have h0 : s.need_update = false ∨ s.api.updating = true := by
    by_cases hn : s.need_update = true
    · right
      by_cases hu : s.api.updating = true
      · exact hu
      · exact absurd ⟨hn, by simpa using hu⟩ hpend
    · left; simpa using hn
  have hacc := urlAccess_throttled s t env h0 hexp hcond
  exact ⟨by rw [hacc], by rw [hacc], by rw [hacc], by rw [hacc], by rw [hacc]⟩

theorem url_guarded_access_witness :
    (¬ ((⟨⟨some "exp=100~s".data, 40, 90, true⟩, [[], "exp=100~s".data],
        "u".data, false, "p".data, []⟩ : Stream).need_update = true ∧
        (⟨⟨some "exp=100~s".data, 40, 90, true⟩, [[], "exp=100~s".data],
        "u".data, false, "p".data, []⟩ : Stream).api.updating = false)) ∧
    ((100:ℚ) > 40) ∧
    ((urlAccess ⟨⟨some "exp=100~s".data, 40, 90, true⟩, [[], "exp=100~s".data],
       "u".data, false, "p".data, []⟩ 100 ⟨none⟩).refreshInvoked = false) ∧
    ((urlAccess ⟨⟨some "exp=100~s".data, 40, 90, true⟩, [[], "exp=100~s".data],
       "u".data, false, "p".data, []⟩ 100 ⟨none⟩).stream.need_update = true) := by
  have h := url_guarded_access
    (⟨⟨some "exp=100~s".data, 40, 90, true⟩, [[], "exp=100~s".data],
      "u".data, false, "p".data, []⟩ : Stream) 100 ⟨none⟩
    (by simp) (by norm_num) (Or.inl rfl)
  exact ⟨by simp, by norm_num, h.1, h.2.1⟩

end Vimeo

namespace Vimeo

lemma findNewAuth_eq_none (hint : Str) (paths : List Str)
    (h : ∀ p ∈ paths, familyMatch (tokenOfPath p) hint = false) :
    findNewAuth hint paths = none := by
  induction paths with
  | nil => rfl
  | cons p rest ih =>
      have hp : familyMatch (tokenOfPath p) hint = false :=
        h p (List.mem_cons_self p rest)
      have hrest : ∀ q ∈ rest, familyMatch (tokenOfPath q) hint = false := by
        intro q hq; exact h q (List.mem_cons_of_mem p hq)
      unfold findNewAuth
      simp only [hp]
      simpa using ih hrest

lemma findNewAuth_eq_first (hint : Str) (paths : List Str) (i : ℕ)
    (hi : i < paths.length)
    (hmatch : familyMatch (tokenOfPath (paths.getD i [])) hint = true)
    (hbefore : ∀ j, j < i → familyMatch (tokenOfPath (paths.getD j [])) hint = false) :
    findNewAuth hint paths = some (tokenOfPath (paths.getD i [])) := by
  induction paths generalizing i with
  | nil => simp at hi
  | cons p rest ih =>
      cases i with
      | zero =>
          simp only [List.getD_cons_zero] at hmatch
          unfold findNewAuth
          simp only [hmatch]
          simp
      | succ k =>
          have hp : familyMatch (tokenOfPath p) hint = false := by
            have := hbefore 0 (Nat.succ_pos k)
            simpa using this
          have hk : k < rest.length := by
            simpa [Nat.succ_lt_succ_iff] using hi
          have hmatch2 : familyMatch (tokenOfPath (rest.getD k [])) hint = true := by
            simpa using hmatch
          have hbefore2 : ∀ j, j < k →
              familyMatch (tokenOfPath (rest.getD j [])) hint = false := by
            intro j hj
            have := hbefore (j + 1) (Nat.succ_lt_succ hj)
            simpa using this
          unfold findNewAuth
          simp only [hp]
          simpa using ih k hk hmatch2 hbefore2

/-- C7: over the cdn candidates of a refresh, the first candidate whose
post-redirect token matches the expiry-pattern family of the current
token hint is installed as `auth_data` and the call succeeds; candidates
of a mismatched family are skipped; if every candidate mismatches, the
call fails with the `failed to get new auth data from URL` error and
installs nothing. -/
theorem reload_family_selection (api : API) (hint : Str) (t : ℚ)
    (paths : List Str) (i : ℕ) :
    ((∀ p ∈ paths, familyMatch (tokenOfPath p) hint = false) →
      (reload_auth_data api hint t ⟨some (some paths)⟩).error
        = some "failed to get new auth data from URL" ∧
      (reload_auth_data api hint t ⟨some (some paths)⟩).api.auth_data
        = api.auth_data) ∧
    (i < paths.length →
      familyMatch (tokenOfPath (paths.getD i [])) hint = true →
      (∀ j, j < i → familyMatch (tokenOfPath (paths.getD j [])) hint = false) →
      (reload_auth_data api hint t ⟨some (some paths)⟩).api.auth_data
        = some (tokenOfPath (paths.getD i [])) ∧
      (reload_auth_data api hint t ⟨some (some paths)⟩).error = none) := by
  constructor
  · intro hall
    have hfind := findNewAuth_eq_none hint paths hall
    simp [reload_auth_data, hfind]
  · intro hi hmatch hbefore
    have hfind := findNewAuth_eq_first hint paths i hi hmatch hbefore
    simp [reload_auth_data, hfind]

theorem reload_family_selection_witness :
    ((1:ℕ) < (["/100-a/x".data, "/exp=200~n/x".data] : List Str).length) ∧
    (familyMatch (tokenOfPath ((["/100-a/x".data, "/exp=200~n/x".data] : List Str).getD 1 []))
      "exp=50~h".data = true) ∧
    ((reload_auth_data ⟨none, 40, 0, false⟩ "exp=50~h".data 100
        ⟨some (some ["/100-a/x".data, "/exp=200~n/x".data])⟩).api.auth_data
      = some (tokenOfPath ((["/100-a/x".data, "/exp=200~n/x".data] : List Str).getD 1 [])) ∧
     (reload_auth_data ⟨none, 40, 0, false⟩ "exp=50~h".data 100
        ⟨some (some ["/100-a/x".data, "/exp=200~n/x".data])⟩).error = none) :=
  ⟨by norm_num, by decide,
   (reload_family_selection ⟨none, 40, 0, false⟩ "exp=50~h".data 100
      ["/100-a/x".data, "/exp=200~n/x".data] 1).2
    (by norm_num) (by decide)
    (by
      intro j hj
      interval_cases j
      decide)⟩

end Vimeo

namespace Vimeo

/-- C6 (counterexample): a successful `reload_auth_data` installs the new
token and clears `updating`, but does not touch `expiry_time`: right
after the call returns, the new token (whose expiry would be 140) is
visible together with the old expiry 40, so token and expiry are not
installed atomically by the refresh. -/
theorem reload_atomic_install_counterexample :
    ((reload_auth_data ⟨some "exp=100~s".data, 40, 0, false⟩ "exp=100~s".data 100
        ⟨some (some ["/exp=200~n/x".data])⟩).error = none) ∧
    ((reload_auth_data ⟨some "exp=100~s".data, 40, 0, false⟩ "exp=100~s".data 100
        ⟨some (some ["/exp=200~n/x".data])⟩).api.auth_data = some "exp=200~n".data) ∧
    (set_expiry_time "exp=200~n".data = .ok 140) ∧
    ((reload_auth_data ⟨some "exp=100~s".data, 40, 0, false⟩ "exp=100~s".data 100
        ⟨some (some ["/exp=200~n/x".data])⟩).api.expiry_time = 40) ∧
    ((40 : ℚ) ≠ 140) := by
  have hfind : findNewAuth "exp=100~s".data ["/exp=200~n/x".data]
      = some "exp=200~n".data := by decide
  have hset : set_expiry_time "exp=200~n".data = .ok 140 := by
    have hp : parseExpiry1 "exp=200~n".data = some 200 := by decide
    rw [set_expiry_time_of_parse1 hp]
    norm_num [expiryTimeLimit]
  refine ⟨?_, ?_, hset, ?_, by norm_num⟩ <;> simp [reload_auth_data, hfind]

/-- C6 (amended): a successful refresh installs the new token and clears
`updating` before returning, but leaves `expiry_time` unchanged; the new
expiry is installed on the next `url` access that observes the completed
refresh, together with the URL rewrite, in the same access. -/
theorem reload_success_token_then_expiry (api : API) (hint : Str) (t : ℚ)
    (paths : List Str) (newAuth : Str) (e : ℚ)
    (hfind : findNewAuth hint paths = some newAuth)
    (hset : set_expiry_time newAuth = .ok e) :
    (reload_auth_data api hint t ⟨some (some paths)⟩).error = none ∧
    (reload_auth_data api hint t ⟨some (some paths)⟩).api.auth_data
      = some newAuth ∧
    (reload_auth_data api hint t ⟨some (some paths)⟩).api.updating = false ∧
    (reload_auth_data api hint t ⟨some (some paths)⟩).api.expiry_time
      = api.expiry_time ∧
    (∀ (s2 : Stream) (t2 : ℚ) (env2 : FetchEnv),
      s2.api = (reload_auth_data api hint t ⟨some (some paths)⟩).api →
      s2.need_update = true → ¬ t2 > e →
      (urlAccess s2 t2 env2).stream.api.expiry_time = e ∧
      (urlAccess s2 t2 env2).stream.need_update = false ∧
      (urlAccess s2 t2 env2).stream.url
        = rebuildUrl s2 (s2.path_parts.set 1 newAuth) ∧
      (urlAccess s2 t2 env2).outcome
        = .returned (rebuildUrl s2 (s2.path_parts.set 1 newAuth))) := by
  have hR : reload_auth_data api hint t ⟨some (some paths)⟩ =
      ⟨⟨some newAuth, api.expiry_time, t, false⟩, none⟩ := by
    simp [reload_auth_data, hfind]
  rw [hR]
  refine ⟨rfl, rfl, rfl, rfl, ?_⟩
  intro s2 t2 env2 happi hnu hf
  have hupd : s2.api.updating = false := by rw [happi]
  have hauth : s2.api.auth_data = some newAuth := by rw [happi]
  have hacc := urlAccess_install s2 t2 env2 newAuth e hnu hupd hauth hset hf
  rw [hacc]
  exact ⟨rfl, rfl, rfl, rfl⟩

theorem reload_success_token_then_expiry_witness :
    (findNewAuth "exp=100~s".data ["/exp=200~n/x".data] = some "exp=200~n".data) ∧
    (set_expiry_time "exp=200~n".data = .ok 140) ∧
    ((reload_auth_data ⟨some "exp=100~s".data, 40, 7, false⟩ "exp=100~s".data 100
        ⟨some (some ["/exp=200~n/x".data])⟩).error = none) := by
  have hfind : findNewAuth "exp=100~s".data ["/exp=200~n/x".data]
      = some "exp=200~n".data := by decide
  have hset : set_expiry_time "exp=200~n".data = .ok 140 := by
    have hp : parseExpiry1 "exp=200~n".data = some 200 := by decide
    rw [set_expiry_time_of_parse1 hp]
    norm_num [expiryTimeLimit]
  exact ⟨hfind, hset,
    (reload_success_token_then_expiry ⟨some "exp=100~s".data, 40, 7, false⟩
      "exp=100~s".data 100 ["/exp=200~n/x".data] "exp=200~n".data 140
      hfind hset).1⟩

end Vimeo

namespace Vimeo

lemma urlAccess_while_updating (s : Stream) (t : ℚ) (env : FetchEnv)
    (hupd : s.api.updating = true) :
    (urlAccess s t env).refreshInvoked = false ∧
    (urlAccess s t env).stream.api = s.api ∧
    (t > s.api.expiry_time → (urlAccess s t env).stream.need_update = true) := by
  by_cases hexp : t > s.api.expiry_time
  · have hacc := urlAccess_throttled s t env (Or.inr hupd) hexp (Or.inl hupd)
    exact ⟨by rw [hacc], by rw [hacc], fun _ => by rw [hacc]⟩
  · have hacc := urlAccess_not_expired s t env (Or.inr hupd) hexp
    exact ⟨by rw [hacc], by rw [hacc], fun h => absurd h hexp⟩

/-- C10: every failing `reload_auth_data` (no data, no hls key, or no
family-matching candidate) returns with `updating` still `true` and
`last_updated` set to the failed attempt's start time; and from any
stream state whose API has `updating = true`, a `url` access never
invokes `reload_auth_data`, leaves the API untouched, marks
`need_update` when past expiry, and no sequence of accesses ever invokes
a refresh again. -/
theorem reload_failure_sticky :
    (∀ (api : API) (hint : Str) (t : ℚ) (env : FetchEnv) (e : String),
      (reload_auth_data api hint t env).error = some e →
      (reload_auth_data api hint t env).api.updating = true ∧
      (reload_auth_data api hint t env).api.last_updated = t) ∧
    (∀ (s : Stream) (t : ℚ) (env : FetchEnv), s.api.updating = true →
      (urlAccess s t env).refreshInvoked = false ∧
      (urlAccess s t env).stream.api = s.api ∧
      (t > s.api.expiry_time → (urlAccess s t env).stream.need_update = true)) ∧
    (∀ (s : Stream) (accs : List (ℚ × FetchEnv)), s.api.updating = true →
      (runAccesses s accs).2 = false) := by
  refine ⟨?_, ?_, ?_⟩
  · intro api hint t env e herr
    cases henv : env.data with
    | none => simp [reload_auth_data, henv]
    | some d =>
        cases d with
        | none => simp [reload_auth_data, henv]
        | some paths =>
            cases hfind : findNewAuth hint paths with
            | none => simp [reload_auth_data, henv, hfind]
            | some a =>
                exfalso
                simp [reload_auth_data, henv, hfind] at herr
  · intro s t env hupd
    exact urlAccess_while_updating s t env hupd
  · intro s accs
    induction accs generalizing s with
    | nil => intro _; rfl
    | cons acc rest ih =>
        intro hupd
        obtain ⟨t, env⟩ := acc
        have h1 := urlAccess_while_updating s t env hupd
        have hupd2 : (urlAccess s t env).stream.api.updating = true := by
          rw [h1.2.1]; exact hupd
        unfold runAccesses
        simp only [h1.1, ih (urlAccess s t env).stream hupd2]
        rfl

theorem reload_failure_sticky_witness :
    ((reload_auth_data ⟨some "exp=100~s".data, 40, 0, false⟩ "exp=100~s".data 100
        ⟨none⟩).error = some "no video data found") ∧
    ((reload_auth_data ⟨some "exp=100~s".data, 40, 0, false⟩ "exp=100~s".data 100
        ⟨none⟩).api.updating = true ∧
     (reload_auth_data ⟨some "exp=100~s".data, 40, 0, false⟩ "exp=100~s".data 100
        ⟨none⟩).api.last_updated = 100) ∧
    ((runAccesses ⟨⟨some "exp=100~s".data, 40, 100, true⟩, [[], "exp=100~s".data],
        "u".data, false, "p".data, []⟩ [(200, ⟨none⟩), (300, ⟨none⟩)]).2 = false) := by
  have herr : (reload_auth_data ⟨some "exp=100~s".data, 40, 0, false⟩
      "exp=100~s".data 100 ⟨none⟩).error = some "no video data found" := by
    simp [reload_auth_data]
  exact ⟨herr,
    reload_failure_sticky.1 ⟨some "exp=100~s".data, 40, 0, false⟩
      "exp=100~s".data 100 ⟨none⟩ "no video data found" herr,
    reload_failure_sticky.2.2 ⟨⟨some "exp=100~s".data, 40, 100, true⟩,
      [[], "exp=100~s".data], "u".data, false, "p".data, []⟩
      [(200, ⟨none⟩), (300, ⟨none⟩)] rfl⟩

end Vimeo
